import Mathlib

/-!
Verification of the giveaway/economy bot (`src/bot.py`) against its
natural-language specification.  The Python functions are shallowly embedded
as executable Lean definitions: the economy commands become pure functions
from a ledger state to a result paired with the new persisted ledger state
(an early `return` before `_write_data` leaves the persisted state
unchanged), Python `int` becomes `Int` (or `Nat` where the source value is
a count), and `random.randint`/`random.sample` are parameterised by an
explicit random source.
-/

namespace Bot

/-! ### Duration parsing (`parse_time_string`, src/bot.py lines 26-41) -/

/-- Python `int(s)` on a string of decimal digits. -/
def digitsToNat (l : List Char) : Nat :=
  l.foldl (fun n c => 10 * n + (c.toNat - 48)) 0

/-- Python `str.strip()` followed by `str.lower()`, on the character list. -/
def normalize (l : List Char) : List Char :=
  (((l.dropWhile Char.isWhitespace).reverse.dropWhile Char.isWhitespace).reverse).map
    Char.toLower

/-- Python `str.isdigit()` (restricted to ASCII): nonempty and all digits. -/
def isDigitString (l : List Char) : Bool :=
  !l.isEmpty && l.all Char.isDigit

/-- One optional regex group `(?:(\d+)u)?` of the pattern
`(?:(\d+)d)?(?:(\d+)h)?(?:(\d+)m)?(?:(\d+)s)?$` (src/bot.py line 35):
a maximal nonempty digit run followed by the unit letter `u`.  Because the
unit letters are not digits and the groups appear in a fixed order, the
regex match is deterministic: a group whose shape is present must be taken,
so `re.match` is exactly this chain of attempts. -/
def matchUnit (u : Char) (l : List Char) : Option (Nat × List Char) :=
  let ds := l.takeWhile Char.isDigit
  match l.dropWhile Char.isDigit with
  | [] => none
  | c :: rest => if ds.isEmpty then none
    else if c = u then some (digitsToNat ds, rest) else none

/-- An optional group: on failure contribute `0` and consume nothing
(the regex group is `None`, replaced by `"0"` at line 39). -/
def tryUnit (u : Char) (l : List Char) : Nat × List Char :=
  match matchUnit u l with
  | some (n, rest) => (n, rest)
  | none => (0, l)

/-- The compound branch of `parse_time_string`: match the anchored pattern
(the trailing `$` is end-of-string, since the input was stripped), then
`total if total > 0 else None` (line 41). -/
def parseCompound (l : List Char) : Option Nat :=
  let p1 := tryUnit 'd' l
  let p2 := tryUnit 'h' p1.snd
  let p3 := tryUnit 'm' p2.snd
  let p4 := tryUnit 's' p3.snd
  if p4.snd.isEmpty then
    let total := p1.fst * 86400 + p2.fst * 3600 + p3.fst * 60 + p4.fst
    if 0 < total then some total else none
  else none

/-- The function `parse_time_string` (src/bot.py lines 26-41): strip and lowercase; a bare
digit string is returned as its integer value; otherwise the compound
grammar applies. -/
def parse_time_string (s : String) : Option Nat :=
  let l := normalize s.data
  if isDigitString l then some (digitsToNat l)
  else parseCompound l

/-! ### Economy data model (src/bot.py lines 154-189) -/

/-- Cooldown and reward constants (src/bot.py lines 154-158). -/
def DAILY_AMOUNT : Int := 100
def DAILY_COOLDOWN : Int := 86400
def PET_COOLDOWN : Int := 1800
def WORK_COOLDOWN : Int := 3600
def SNUGGLE_COOLDOWN : Int := 3600

/-- One user's record in the persisted document
(the dict literal of `_ensure_user_record`, lines 182-188). -/
structure EconRecord where
  balance : Int
  last_daily : Int
  last_pet : Int
  last_work : Int
  last_snuggle : Int
deriving DecidableEq

/-- The fresh record created on first reference. -/
def freshRecord : EconRecord :=
  { balance := 0, last_daily := 0, last_pet := 0, last_work := 0, last_snuggle := 0 }

/-- The persisted ledger document: user-id key (Python `str(user_id)`) to
record.  `none` means the key is absent from the JSON document. -/
def Ledger : Type := String → Option EconRecord

/-- The empty document (missing or unreadable file, `_read_data`). -/
def emptyLedger : Ledger := fun _ => none

/-- Point update of the document. -/
def setRecord (L : Ledger) (k : String) (r : EconRecord) : Ledger :=
  fun k2 => if k2 = k then some r else L k2

/-- A concrete record holding 50 coins. -/
def exampleRecord : EconRecord :=
  { balance := 50, last_daily := 0, last_pet := 0, last_work := 0,
    last_snuggle := 0 }

/-- A small concrete document: user "1" holds 50 coins. -/
def exampleLedger : Ledger :=
  setRecord emptyLedger "1" exampleRecord

/-- The helper `_ensure_user_record` (lines 179-189): create a fresh record when the
key is absent, otherwise leave the document unchanged. -/
def ensure_user_record (L : Ledger) (k : String) : Ledger :=
  fun k2 => if k2 = k then some ((L k).getD freshRecord) else L k2

/-- Read a record, defaulting to a fresh one (a record obtained right after
`_ensure_user_record` always exists). -/
def getRecord (L : Ledger) (k : String) : EconRecord :=
  (L k).getD freshRecord

/-- The balance a document associates to a key (0 when absent). -/
def balanceOf (L : Ledger) (k : String) : Int :=
  (getRecord L k).balance

/-! ### CooldownGate: the repeated `if now - last < C` test -/

inductive CooldownResult
  | allowed
  | denied (remaining : Int)
deriving DecidableEq

/-- The cooldown test appearing identically in `daily_cmd`, `pet_cmd`,
`work_cmd`, `snuggle_cmd` (e.g. lines 227-229): denied with
`remaining = C - (now - last)` when `now - last < C`, else allowed. -/
def cooldownCheck (last now c : Int) : CooldownResult :=
  if now - last < c then .denied (c - (now - last)) else .allowed

/-! ### Economy commands.  Each command returns (result, persisted ledger);
a path that returns before `_write_data` keeps the original ledger. -/

inductive ClaimResult
  | granted (newBalance : Int)
  | denied (remaining : Int)
deriving DecidableEq

/-- Command `balance_cmd` (`!bal`, lines 205-216): reads the (lazily defaulted)
balance; no `_write_data`, so the persisted document is unchanged. -/
def balance_cmd (uid : String) (L : Ledger) : Int × Ledger :=
  let data := ensure_user_record L uid
  ((getRecord data uid).balance, L)

/-- Command `daily_cmd` (`!daily`, lines 219-234). -/
def daily_cmd (uid : String) (now : Int) (L : Ledger) : ClaimResult × Ledger :=
  let data := ensure_user_record L uid
  let rec1 := getRecord data uid
  match cooldownCheck rec1.last_daily now DAILY_COOLDOWN with
  | .denied remaining => (.denied remaining, L)
  | .allowed =>
    let rec2 := { rec1 with balance := rec1.balance + DAILY_AMOUNT, last_daily := now }
    (.granted rec2.balance, setRecord data uid rec2)

/-- Command `pet_cmd` (`!pet`, lines 237-253); `random.randint(5, 25)` is modelled
by `5 + rnd % 21` for an arbitrary draw `rnd`. -/
def pet_cmd (uid : String) (now : Int) (rnd : Nat) (L : Ledger) : ClaimResult × Ledger :=
  let reward : Int := 5 + (rnd % 21 : Nat)
  let data := ensure_user_record L uid
  let rec1 := getRecord data uid
  match cooldownCheck rec1.last_pet now PET_COOLDOWN with
  | .denied remaining => (.denied remaining, L)
  | .allowed =>
    let rec2 := { rec1 with balance := rec1.balance + reward, last_pet := now }
    (.granted rec2.balance, setRecord data uid rec2)

/-- Command `work_cmd` (`!work`, lines 256-272); `random.randint(20, 150)` is
modelled by `20 + rnd % 131`. -/
def work_cmd (uid : String) (now : Int) (rnd : Nat) (L : Ledger) : ClaimResult × Ledger :=
  let reward : Int := 20 + (rnd % 131 : Nat)
  let data := ensure_user_record L uid
  let rec1 := getRecord data uid
  match cooldownCheck rec1.last_work now WORK_COOLDOWN with
  | .denied remaining => (.denied remaining, L)
  | .allowed =>
    let rec2 := { rec1 with balance := rec1.balance + reward, last_work := now }
    (.granted rec2.balance, setRecord data uid rec2)

inductive SnuggleResult
  | selfTarget
  | denied (remaining : Int)
  | granted (rewardEach : Int)
deriving DecidableEq

/-- Command `snuggle_cmd` (`!snuggle`, lines 275-299).  The target carries a
`memberIsBot` attribute which — unlike `give_cmd` — the code never reads.
On grant both records are credited `reward = 10` and only the initiator's
`last_snuggle` is stamped, all in the single `_write_data` at line 298. -/
def snuggle_cmd (uid memberId : String) (memberIsBot : Bool) (now : Int)
    (L : Ledger) : SnuggleResult × Ledger :=
  if memberId = uid then (.selfTarget, L)
  else
    let reward : Int := 10
    let data := ensure_user_record (ensure_user_record L uid) memberId
    let rec_a := getRecord data uid
    match cooldownCheck rec_a.last_snuggle now SNUGGLE_COOLDOWN with
    | .denied remaining => (.denied remaining, L)
    | .allowed =>
      let rec_b := getRecord data memberId
      let data2 := setRecord data uid
        { rec_a with balance := rec_a.balance + reward, last_snuggle := now }
      let data3 := setRecord data2 memberId
        { rec_b with balance := rec_b.balance + reward }
      (.granted reward, data3)

inductive TransferResult
  | targetIsBot
  | invalidAmount
  | selfTransfer
  | insufficientFunds (senderBalance : Int)
  | completed (senderBalance receiverBalance : Int)
deriving DecidableEq

/-- Command `give_cmd` (`!give`, lines 302-333): the checks run in source order —
`member.bot`, `amount <= 0`, `member.id == ctx.author.id`, and, under the
lock, `sender["balance"] < amount`; only the success path reaches
`_write_data`. -/
def give_cmd (senderId memberId : String) (memberIsBot : Bool) (amount : Int)
    (L : Ledger) : TransferResult × Ledger :=
  if memberIsBot then (.targetIsBot, L)
  else if amount ≤ 0 then (.invalidAmount, L)
  else if memberId = senderId then (.selfTransfer, L)
  else
    let data := ensure_user_record (ensure_user_record L senderId) memberId
    let sender := getRecord data senderId
    let receiver := getRecord data memberId
    if sender.balance < amount then (.insufficientFunds sender.balance, L)
    else
      let sender2 := { sender with balance := sender.balance - amount }
      let receiver2 := { receiver with balance := receiver.balance + amount }
      let data2 := setRecord (setRecord data senderId sender2) memberId receiver2
      (.completed sender2.balance receiver2.balance, data2)

/-! ### Giveaway resolution (`create_gw`, src/bot.py lines 124-138).
Users are identified by their numeric id; a reactor carries an `isBot`
flag, filtered out at line 126.  `random.sample(users, k)` draws `k`
elements at distinct positions; its pool-based partial Fisher-Yates method
is embedded, parameterised by the random source `rand` (the `step`-th draw,
reduced modulo the active pool size). -/

/-- One `random.sample` pool step: the selected position `j` receives the
last active element and the active region shrinks by one. -/
def swapRemove (p : List Nat) (j : Nat) : List Nat :=
  (p.set j (p.getD (p.length - 1) 0)).dropLast

/-- Draw `k` elements: at each step pick the active position
`rand step % pool size`, emit it, swap-remove it. -/
def sampleAux (rand : Nat → Nat) : Nat → Nat → List Nat → List Nat
  | _, 0, _ => []
  | step, k + 1, p =>
    if p.isEmpty then []
    else
      let j := rand step % p.length
      p.getD j 0 :: sampleAux rand (step + 1) k (swapRemove p j)

/-- Python `random.sample(p, k)` under the random source `rand`. -/
def sample (p : List Nat) (k : Nat) (rand : Nat → Nat) : List Nat :=
  sampleAux rand 0 k p

/-- Lines 135-138: everyone wins when `len(users) <= winners`, otherwise
`random.sample(users, k=winners)`. -/
def chooseWinners (users : List Nat) (winners : Nat) (rand : Nat → Nat) : List Nat :=
  if users.length ≤ winners then users else sample users winners rand

/-- Line 126: the authoritative entrant list — reactors with the bot
accounts filtered out. -/
def resolveEntrants (reactors : List (Nat × Bool)) : List Nat :=
  (reactors.filter (fun u => !u.snd)).map Prod.fst

/-! ### Lemmas about the sampling step -/

theorem swapRemove_length (p : List Nat) (j : Nat) :
    (swapRemove p j).length = p.length - 1 := by
  simp [swapRemove]

/-- The head element of a nonempty list's last position, put in front of its
`dropLast`, is a permutation of the list. -/
theorem getD_last_cons_dropLast_perm (l : List Nat) (h : l ≠ []) :
    (l.getD (l.length - 1) 0 :: l.dropLast).Perm l := by
  have hlt : l.length - 1 < l.length := by
    cases l with
    | nil => simp at h
    | cons x xs => simp
  have h1 : l.getD (l.length - 1) 0 = l.getLast h := by
    rw [List.getD_eq_getElem l 0 hlt, List.getLast_eq_getElem]
  have h3 : (l.getLast h :: l.dropLast).Perm (l.dropLast ++ [l.getLast h]) :=
    (List.perm_append_singleton _ _).symm
  rw [List.dropLast_append_getLast h] at h3
  rw [h1]
  exact h3

/-- A swap-remove step only permutes: the removed element in front of the
shrunken pool is a permutation of the pool. -/
theorem swapRemove_perm : ∀ (p : List Nat) (j : Nat), j < p.length →
    (p.getD j 0 :: swapRemove p j).Perm p := by
  intro p
  induction p with
  | nil => intro j hj; simp at hj
  | cons a t ih =>
    intro j hj
    cases j with
    | zero =>
      cases t with
      | nil => simp [swapRemove]
      | cons b t2 =>
        have hv : (a :: b :: t2).getD ((a :: b :: t2).length - 1) 0 =
            (b :: t2).getD ((b :: t2).length - 1) 0 := by
          simp [List.getD_cons_succ]
        simp only [swapRemove, List.set_cons_zero, List.getD_cons_zero, hv]
        rw [List.dropLast_cons₂]
        exact List.Perm.cons a (getD_last_cons_dropLast_perm (b :: t2) (by simp))
    | succ j2 =>
      have hj2 : j2 < t.length := by simpa using hj
      have ht : t ≠ [] := by
        cases t with
        | nil => simp at hj2
        | cons x xs => simp
      have hv : (a :: t).getD ((a :: t).length - 1) 0 = t.getD (t.length - 1) 0 := by
        cases t with
        | nil => simp at ht
        | cons x xs => simp [List.getD_cons_succ]
      have hset : (a :: t).set (j2 + 1) ((a :: t).getD ((a :: t).length - 1) 0) =
          a :: t.set j2 (t.getD (t.length - 1) 0) := by
        rw [hv, List.set_cons_succ]
      have hne : t.set j2 (t.getD (t.length - 1) 0) ≠ [] := by
        intro hcon
        have := congrArg List.length hcon
        simp at this
        exact ht this
      have hsw : swapRemove (a :: t) (j2 + 1) = a :: swapRemove t j2 := by
        simp only [swapRemove, hset]
        cases hcase : t.set j2 (t.getD (t.length - 1) 0) with
        | nil => exact absurd hcase hne
        | cons y ys => rw [List.dropLast_cons₂, ← hcase]
      rw [hsw, List.getD_cons_succ]
      exact (List.Perm.swap a (t.getD j2 0) (swapRemove t j2)).trans
        (List.Perm.cons a (ih j2 hj2))

/-- Whatever the random source, a sample is a sub-permutation of the pool. -/
theorem sampleAux_subperm (rand : Nat → Nat) :
    ∀ (k step : Nat) (p : List Nat), List.Subperm (sampleAux rand step k p) p := by
  intro k
  induction k with
  | zero => intro step p; exact List.nil_subperm
  | succ k ih =>
    intro step p
    by_cases hp : p.isEmpty
    · simp [sampleAux, hp, List.nil_subperm]
    · have hlen : 0 < p.length := by
        cases p with
        | nil => simp at hp
        | cons x xs => simp
      have hj : rand step % p.length < p.length := Nat.mod_lt _ hlen
      have h1 : List.Subperm
          (p.getD (rand step % p.length) 0 :: sampleAux rand (step + 1) k
            (swapRemove p (rand step % p.length)))
          (p.getD (rand step % p.length) 0 :: swapRemove p (rand step % p.length)) :=
        (List.subperm_cons _).mpr (ih (step + 1) (swapRemove p (rand step % p.length)))
      have h2 := (swapRemove_perm p (rand step % p.length) hj).subperm
      simpa [sampleAux, hp] using h1.trans h2

/-- When the requested size fits in the pool, the sample has exactly that
size. -/
theorem sampleAux_length (rand : Nat → Nat) :
    ∀ (k step : Nat) (p : List Nat), k ≤ p.length →
      (sampleAux rand step k p).length = k := by
  intro k
  induction k with
  | zero => intro step p _; rfl
  | succ k ih =>
    intro step p hk
    have hlen : 0 < p.length := Nat.lt_of_lt_of_le (Nat.succ_pos k) hk
    have hp : ¬ p.isEmpty := by
      cases p with
      | nil => simp at hlen
      | cons x xs => simp
    have hrec : k ≤ (swapRemove p (rand step % p.length)).length := by
      rw [swapRemove_length]
      omega
    simp [sampleAux, hp, ih (step + 1) _ hrec]

/-- A sub-permutation of a duplicate-free list is duplicate-free. -/
theorem subperm_nodup {l₁ l₂ : List Nat} (h : List.Subperm l₁ l₂)
    (h2 : l₂.Nodup) : l₁.Nodup := by
  obtain ⟨l, hperm, hsub⟩ := h
  exact hperm.nodup (List.Nodup.sublist hsub h2)

/-! ### Lemmas about the ledger document -/

theorem setRecord_self (L : Ledger) (k : String) (r : EconRecord) :
    setRecord L k r k = some r := by
  simp [setRecord]

theorem setRecord_other (L : Ledger) (k k2 : String) (r : EconRecord)
    (h : k2 ≠ k) : setRecord L k r k2 = L k2 := by
  simp [setRecord, h]

theorem getRecord_set_self (L : Ledger) (k : String) (r : EconRecord) :
    getRecord (setRecord L k r) k = r := by
  simp [getRecord, setRecord]

theorem getRecord_set_other (L : Ledger) (k k2 : String) (r : EconRecord)
    (h : k2 ≠ k) : getRecord (setRecord L k r) k2 = getRecord L k2 := by
  simp [getRecord, setRecord, h]

theorem ensure_other (L : Ledger) (k k2 : String) (h : k2 ≠ k) :
    ensure_user_record L k k2 = L k2 := by
  simp [ensure_user_record, h]

theorem getRecord_ensure_self (L : Ledger) (k : String) :
    getRecord (ensure_user_record L k) k = getRecord L k := by
  simp [getRecord, ensure_user_record]

theorem getRecord_ensure_other (L : Ledger) (k k2 : String) (h : k2 ≠ k) :
    getRecord (ensure_user_record L k) k2 = getRecord L k2 := by
  simp [getRecord, ensure_user_record, h]

/-- Every balance stored in the document is non-negative. -/
def ledgerNonNeg (L : Ledger) : Prop :=
  ∀ (u : String) (r : EconRecord), L u = some r → 0 ≤ r.balance

theorem ledgerNonNeg_balanceOf {L : Ledger} (h : ledgerNonNeg L) (k : String) :
    0 ≤ balanceOf L k := by
  unfold balanceOf getRecord
  cases hc : L k with
  | none => simp [freshRecord]
  | some r => simpa using h k r hc

theorem ledgerNonNeg_ensure {L : Ledger} (h : ledgerNonNeg L) (k : String) :
    ledgerNonNeg (ensure_user_record L k) := by
  intro u r hr
  unfold ensure_user_record at hr
  by_cases hu : u = k
  · simp [hu] at hr
    cases hc : L k with
    | none => rw [hc] at hr; simp [freshRecord] at hr; simp [← hr, freshRecord]
    | some r2 => rw [hc] at hr; simp at hr; rw [← hr]; exact h k r2 hc
  · simp [hu] at hr
    exact h u r hr

theorem balanceOf_set_self (L : Ledger) (k : String) (r : EconRecord) :
    balanceOf (setRecord L k r) k = r.balance := by
  unfold balanceOf
  rw [getRecord_set_self]

theorem balanceOf_set_other (L : Ledger) (k k2 : String) (r : EconRecord)
    (h : k2 ≠ k) : balanceOf (setRecord L k r) k2 = balanceOf L k2 := by
  unfold balanceOf
  rw [getRecord_set_other _ _ _ _ h]

theorem balance_update (r : EconRecord) (b : Int) :
    ({ r with balance := b } : EconRecord).balance = b := rfl

theorem ledgerNonNeg_set {L : Ledger} (h : ledgerNonNeg L) {k : String}
    {r : EconRecord} (hr : 0 ≤ r.balance) : ledgerNonNeg (setRecord L k r) := by
  intro u r2 hr2
  unfold setRecord at hr2
  by_cases hu : u = k
  · simp [hu] at hr2
    rw [← hr2]
    exact hr
  · simp [hu] at hr2
    exact h u r2 hr2

/-- A compound parse only succeeds with a strictly positive total. -/
theorem parseCompound_pos (l : List Char) (n : Nat)
    (h : parseCompound l = some n) : 0 < n := by
  simp only [parseCompound] at h
  split at h
  · split at h
    · rw [← Option.some.inj h]
      assumption
    · exact absurd h (by simp)
  · exact absurd h (by simp)

/-! ### Claim theorems -/

/-- C3 counterexample: the claim says `parse` never returns 0 and that the
bare digit string `"0"` is invalid, but `"0".isdigit()` is true and the
code returns `int("0") = 0` before the `total > 0` guard is ever reached. -/
theorem spec_C3_counterexample :
    parse_time_string "0" = some 0 ∧ ¬ (0 : Nat) < 0 := by
  constructor
  · decide
  · decide

/-- C3 (amended): every successful parse is strictly positive unless the
stripped lowercased input is a bare digit string, in which case the parse
returns its integer value (which is 0 for `"0"`); the compound branch never
returns 0 (a non-matching or all-zero compound string is invalid). -/
theorem spec_C3 (s : String) (n : Nat) (l : List Char) (m : Nat)
    (hp : parse_time_string s = some n) (hc : parseCompound l = some m) :
    (0 < n ∨ (isDigitString (normalize s.data) = true
      ∧ n = digitsToNat (normalize s.data)))
    ∧ 0 < m := by
  refine ⟨?_, parseCompound_pos l m hc⟩
  simp only [parse_time_string] at hp
  split at hp
  · exact Or.inr ⟨by assumption, (Option.some.inj hp).symm⟩
  · exact Or.inl (parseCompound_pos _ _ hp)

/-- C3 witness: concrete instance of the amended claim. -/
theorem spec_C3_witness :
    ((0 : Nat) < 5400 ∨ (isDigitString (normalize "1h30m".data) = true
      ∧ 5400 = digitsToNat (normalize "1h30m".data)))
    ∧ (0 : Nat) < 172800 :=
  spec_C3 "1h30m" 5400 ('2' :: 'd' :: []) 172800 (by decide) (by decide)

/-- C6: each present unit of a compound duration contributes
`value × {86400, 3600, 60, 1}` and the contributions are summed; a bare
digit string is taken as seconds; the spec's worked examples hold. -/
theorem spec_C6 (input : List Char) (d h m s : Nat) (l1 l2 l3 l4 : List Char)
    (h1 : tryUnit 'd' input = (d, l1)) (h2 : tryUnit 'h' l1 = (h, l2))
    (h3 : tryUnit 'm' l2 = (m, l3)) (h4 : tryUnit 's' l3 = (s, l4))
    (h5 : l4 = []) (h6 : 0 < d * 86400 + h * 3600 + m * 60 + s) :
    parseCompound input = some (d * 86400 + h * 3600 + m * 60 + s)
    ∧ parse_time_string "10m" = some 600
    ∧ parse_time_string "1h30m" = some 5400
    ∧ parse_time_string "2d" = some 172800
    ∧ parse_time_string "45" = some 45
    ∧ parse_time_string "0m" = none
    ∧ parse_time_string "abc" = none := by
  refine ⟨?_, by decide, by decide, by decide, by decide, by decide, by decide⟩
  simp only [parseCompound, h1, h2, h3, h4, h5]
  simp only [List.isEmpty_nil, if_true]
  simp [h6]

/-- C6 witness: the general statement applied to `"1h30m"`. -/
theorem spec_C6_witness :
    parseCompound ('1' :: 'h' :: '3' :: '0' :: 'm' :: []) =
      some (0 * 86400 + 1 * 3600 + 30 * 60 + 0)
    ∧ parse_time_string "10m" = some 600
    ∧ parse_time_string "1h30m" = some 5400
    ∧ parse_time_string "2d" = some 172800
    ∧ parse_time_string "45" = some 45
    ∧ parse_time_string "0m" = none
    ∧ parse_time_string "abc" = none :=
  spec_C6 ('1' :: 'h' :: '3' :: '0' :: 'm' :: []) 0 1 30 0
    ('1' :: 'h' :: '3' :: '0' :: 'm' :: []) ('3' :: '0' :: 'm' :: []) [] []
    (by decide) (by decide) (by decide) (by decide) rfl (by decide)

/-- C10: `give_cmd` checks its preconditions in source order — automated
target, then non-positive amount, then self-transfer, then insufficient
funds — so an input violating several at once reports the earliest check
(in particular a non-positive amount sent to a bot is `targetIsBot`, since
the first conjunct holds for every amount). -/
theorem spec_C10 (senderId memberId : String) (memberIsBot : Bool)
    (amount : Int) (L : Ledger) :
    (memberIsBot = true →
      give_cmd senderId memberId memberIsBot amount L = (.targetIsBot, L))
    ∧ (memberIsBot = false → amount ≤ 0 →
      give_cmd senderId memberId memberIsBot amount L = (.invalidAmount, L))
    ∧ (memberIsBot = false → 0 < amount → memberId = senderId →
      give_cmd senderId memberId memberIsBot amount L = (.selfTransfer, L))
    ∧ (memberIsBot = false → 0 < amount → memberId ≠ senderId →
      balanceOf L senderId < amount →
      give_cmd senderId memberId memberIsBot amount L =
        (.insufficientFunds (balanceOf L senderId), L)) := by
  refine ⟨?_, ?_, ?_, ?_⟩
  · intro hb
    simp [give_cmd, hb]
  · intro hb hamt
    simp [give_cmd, hb, hamt]
  · intro hb hamt hself
    simp [give_cmd, hb, not_le.mpr hamt, hself]
  · intro hb hamt hne hfunds
    have hbal : (getRecord (ensure_user_record (ensure_user_record L senderId)
        memberId) senderId).balance = balanceOf L senderId := by
      rw [getRecord_ensure_other _ _ _ (Ne.symm hne), getRecord_ensure_self]
      rfl
    simp [give_cmd, hb, not_le.mpr hamt, hne, hbal, hfunds]

/-- C10 witness: a negative amount sent to a bot reports the automated
target, not the invalid amount. -/
theorem spec_C10_witness :
    give_cmd "1" "2" true (-5) emptyLedger = (.targetIsBot, emptyLedger) :=
  (spec_C10 "1" "2" true (-5) emptyLedger).1 rfl

/-- C1: a transfer with positive amount, distinct non-automated parties and
sufficient sender balance preserves the sum of the two balances; a transfer
exceeding the sender's balance leaves the persisted document — and hence
both balances — unchanged (the dict mutations made by
`_ensure_user_record` on that path are never written). -/
theorem spec_C1 (senderId memberId : String) (amount : Int) (L : Ledger)
    (hamt : 0 < amount) (hne : memberId ≠ senderId) :
    (amount ≤ balanceOf L senderId →
      balanceOf (give_cmd senderId memberId false amount L).snd senderId
        + balanceOf (give_cmd senderId memberId false amount L).snd memberId
      = balanceOf L senderId + balanceOf L memberId)
    ∧ (balanceOf L senderId < amount →
      (give_cmd senderId memberId false amount L).snd = L) := by
  have hsender : (getRecord (ensure_user_record (ensure_user_record L senderId)
      memberId) senderId).balance = balanceOf L senderId := by
    rw [getRecord_ensure_other _ _ _ (Ne.symm hne), getRecord_ensure_self]; rfl
  have hreceiver : (getRecord (ensure_user_record (ensure_user_record L senderId)
      memberId) memberId).balance = balanceOf L memberId := by
    rw [getRecord_ensure_self, getRecord_ensure_other _ _ _ hne]; rfl
  constructor
  · intro hle
    have hnlt : ¬ (getRecord (ensure_user_record (ensure_user_record L senderId)
        memberId) senderId).balance < amount := by rw [hsender]; omega
    have hexp : (give_cmd senderId memberId false amount L).snd =
        setRecord
          (setRecord (ensure_user_record (ensure_user_record L senderId)
            memberId) senderId
            { getRecord (ensure_user_record (ensure_user_record L senderId)
                memberId) senderId with
              balance := (getRecord (ensure_user_record
                (ensure_user_record L senderId) memberId) senderId).balance
                - amount })
          memberId
          { getRecord (ensure_user_record (ensure_user_record L senderId)
              memberId) memberId with
            balance := (getRecord (ensure_user_record
              (ensure_user_record L senderId) memberId) memberId).balance
              + amount } := by
      simp [give_cmd, hne, hnlt, not_le.mpr hamt]
    rw [hexp, balanceOf_set_self, balanceOf_set_other _ _ _ _ (Ne.symm hne),
      balanceOf_set_self, balance_update, balance_update, hsender, hreceiver]
    ring
  · intro hlt
    have hlt2 : (getRecord (ensure_user_record (ensure_user_record L senderId)
        memberId) senderId).balance < amount := by rw [hsender]; exact hlt
    simp [give_cmd, not_le.mpr hamt, hne, hlt2]

/-- C1 witness: a concrete transfer of 30 from a balance of 50. -/
theorem spec_C1_witness :
    balanceOf (give_cmd "1" "2" false 30 exampleLedger).snd "1"
      + balanceOf (give_cmd "1" "2" false 30 exampleLedger).snd "2"
    = balanceOf exampleLedger "1" + balanceOf exampleLedger "2" :=
  (spec_C1 "1" "2" 30 exampleLedger (by decide) (by decide)).1 (by decide)

/-- C4: the cooldown test is a pure function of the three integers —
allowed exactly when `now - last ≥ cooldown`, otherwise denied with
remaining `cooldown - (now - last)`; a granted daily claim immediately
re-tried is denied (with the full cooldown remaining), and re-tried after
exactly the cooldown duration it is granted. -/
theorem spec_C4 (last now c t : Int) (uid : String) (L : Ledger) (bal : Int)
    (hgrant : (daily_cmd uid t L).fst = .granted bal) :
    (cooldownCheck last now c = .allowed ↔ c ≤ now - last)
    ∧ (now - last < c → cooldownCheck last now c = .denied (c - (now - last)))
    ∧ (daily_cmd uid t (daily_cmd uid t L).snd).fst = .denied DAILY_COOLDOWN
    ∧ ∃ bal2, (daily_cmd uid (t + DAILY_COOLDOWN)
        (daily_cmd uid t L).snd).fst = .granted bal2 := by
  have hcase : cooldownCheck (getRecord (ensure_user_record L uid)
      uid).last_daily t DAILY_COOLDOWN = .allowed := by
    cases hcc : cooldownCheck (getRecord (ensure_user_record L uid)
        uid).last_daily t DAILY_COOLDOWN with
    | allowed => rfl
    | denied r =>
      rw [show (daily_cmd uid t L).fst = .denied r from by
        simp [daily_cmd, hcc]] at hgrant
      exact ClaimResult.noConfusion hgrant
  have hsnd : (daily_cmd uid t L).snd =
      setRecord (ensure_user_record L uid) uid
        { getRecord (ensure_user_record L uid) uid with
          balance := (getRecord (ensure_user_record L uid) uid).balance
            + DAILY_AMOUNT,
          last_daily := t } := by
    simp [daily_cmd, hcase]
  refine ⟨?_, ?_, ?_, ?_⟩
  · unfold cooldownCheck
    constructor
    · intro h
      by_contra hc
      rw [if_pos (by omega)] at h
      exact CooldownResult.noConfusion h
    · intro h
      rw [if_neg (by omega)]
  · intro h
    unfold cooldownCheck
    rw [if_pos h]
  · rw [hsnd]
    simp [daily_cmd, getRecord_ensure_self, getRecord_set_self,
      cooldownCheck, DAILY_COOLDOWN]
  · refine ⟨(getRecord (ensure_user_record L uid) uid).balance
      + DAILY_AMOUNT + DAILY_AMOUNT, ?_⟩
    rw [hsnd]
    simp [daily_cmd, getRecord_ensure_self, getRecord_set_self, cooldownCheck]

/-- C4 witness: a fresh user claiming daily at time 86400, then immediately
again, then after exactly the cooldown. -/
theorem spec_C4_witness :
    (cooldownCheck 0 5 3 = .allowed ↔ (3 : Int) ≤ 5 - 0)
    ∧ ((5 : Int) - 0 < 3 → cooldownCheck 0 5 3 = .denied (3 - (5 - 0)))
    ∧ (daily_cmd "1" 86400 (daily_cmd "1" 86400 emptyLedger).snd).fst =
        .denied DAILY_COOLDOWN
    ∧ ∃ bal2, (daily_cmd "1" (86400 + DAILY_COOLDOWN)
        (daily_cmd "1" 86400 emptyLedger).snd).fst = .granted bal2 :=
  spec_C4 0 5 3 86400 "1" emptyLedger 100 (by decide)

/-- C8: a granted daily claim adds exactly the fixed `DAILY_AMOUNT = 100`
to the claimant's balance and stamps the claimant's `last_daily`; the
claimant's other timestamp fields and every other user's entry in the
document are untouched. -/
theorem spec_C8 (uid : String) (now : Int) (L : Ledger) (bal : Int)
    (hgrant : (daily_cmd uid now L).fst = .granted bal) :
    DAILY_AMOUNT = 100
    ∧ balanceOf (daily_cmd uid now L).snd uid = balanceOf L uid + DAILY_AMOUNT
    ∧ (getRecord (daily_cmd uid now L).snd uid).last_daily = now
    ∧ (getRecord (daily_cmd uid now L).snd uid).last_pet =
        (getRecord L uid).last_pet
    ∧ (getRecord (daily_cmd uid now L).snd uid).last_work =
        (getRecord L uid).last_work
    ∧ (getRecord (daily_cmd uid now L).snd uid).last_snuggle =
        (getRecord L uid).last_snuggle
    ∧ ∀ v : String, v ≠ uid → (daily_cmd uid now L).snd v = L v := by
  cases hcase : cooldownCheck (getRecord (ensure_user_record L uid)
      uid).last_daily now DAILY_COOLDOWN with
  | denied r =>
    rw [show (daily_cmd uid now L).fst = .denied r from by
      simp [daily_cmd, hcase]] at hgrant
    exact ClaimResult.noConfusion hgrant
  | allowed =>
    have hsnd : (daily_cmd uid now L).snd =
        setRecord (ensure_user_record L uid) uid
          { getRecord (ensure_user_record L uid) uid with
            balance := (getRecord (ensure_user_record L uid) uid).balance
              + DAILY_AMOUNT,
            last_daily := now } := by
      simp [daily_cmd, hcase]
    rw [hsnd]
    refine ⟨rfl, ?_, ?_, ?_, ?_, ?_, ?_⟩
    · unfold balanceOf
      rw [getRecord_set_self, getRecord_ensure_self]
    · rw [getRecord_set_self]
    · rw [getRecord_set_self]
      show (getRecord (ensure_user_record L uid) uid).last_pet = _
      rw [getRecord_ensure_self]
    · rw [getRecord_set_self]
      show (getRecord (ensure_user_record L uid) uid).last_work = _
      rw [getRecord_ensure_self]
    · rw [getRecord_set_self]
      show (getRecord (ensure_user_record L uid) uid).last_snuggle = _
      rw [getRecord_ensure_self]
    · intro v hv
      rw [setRecord_other _ _ _ _ hv, ensure_other _ _ _ hv]

/-- C8 witness: the frame facts for a fresh user claiming at time 86400. -/
theorem spec_C8_witness :
    DAILY_AMOUNT = 100
    ∧ balanceOf (daily_cmd "1" 86400 emptyLedger).snd "1" =
        balanceOf emptyLedger "1" + DAILY_AMOUNT
    ∧ (getRecord (daily_cmd "1" 86400 emptyLedger).snd "1").last_daily = 86400
    ∧ (getRecord (daily_cmd "1" 86400 emptyLedger).snd "1").last_pet =
        (getRecord emptyLedger "1").last_pet
    ∧ (getRecord (daily_cmd "1" 86400 emptyLedger).snd "1").last_work =
        (getRecord emptyLedger "1").last_work
    ∧ (getRecord (daily_cmd "1" 86400 emptyLedger).snd "1").last_snuggle =
        (getRecord emptyLedger "1").last_snuggle
    ∧ ∀ v : String, v ≠ "1" → (daily_cmd "1" 86400 emptyLedger).snd v =
        emptyLedger v :=
  spec_C8 "1" 86400 emptyLedger 100 (by decide)

/-- C7: snuggle rejects a self-target with no state change; a grant credits
the initiator and the target the same fixed reward 10 in the one persisted
write that the command performs, stamps `last_snuggle` only on the
initiator, and leaves the target's `last_snuggle` unchanged. -/
theorem spec_C7 (uid memberId : String) (memberIsBot : Bool) (now : Int)
    (L : Ledger) (hne : memberId ≠ uid)
    (hcd : SNUGGLE_COOLDOWN ≤ now - (getRecord L uid).last_snuggle) :
    snuggle_cmd uid uid memberIsBot now L = (.selfTarget, L)
    ∧ (snuggle_cmd uid memberId memberIsBot now L).fst = .granted 10
    ∧ balanceOf (snuggle_cmd uid memberId memberIsBot now L).snd uid
        = balanceOf L uid + 10
    ∧ balanceOf (snuggle_cmd uid memberId memberIsBot now L).snd memberId
        = balanceOf L memberId + 10
    ∧ (getRecord (snuggle_cmd uid memberId memberIsBot now L).snd
        uid).last_snuggle = now
    ∧ (getRecord (snuggle_cmd uid memberId memberIsBot now L).snd
        memberId).last_snuggle = (getRecord L memberId).last_snuggle := by
  have hlast : (getRecord (ensure_user_record (ensure_user_record L uid)
      memberId) uid).last_snuggle = (getRecord L uid).last_snuggle := by
    rw [getRecord_ensure_other _ _ _ (Ne.symm hne), getRecord_ensure_self]
  have hcase : cooldownCheck (getRecord (ensure_user_record
      (ensure_user_record L uid) memberId) uid).last_snuggle now
      SNUGGLE_COOLDOWN = .allowed := by
    unfold cooldownCheck
    rw [hlast, if_neg (by omega)]
  have hexp : snuggle_cmd uid memberId memberIsBot now L = (.granted 10,
      setRecord
        (setRecord (ensure_user_record (ensure_user_record L uid) memberId)
          uid
          { getRecord (ensure_user_record (ensure_user_record L uid)
              memberId) uid with
            balance := (getRecord (ensure_user_record
              (ensure_user_record L uid) memberId) uid).balance + 10,
            last_snuggle := now })
        memberId
        { getRecord (ensure_user_record (ensure_user_record L uid) memberId)
            memberId with
          balance := (getRecord (ensure_user_record (ensure_user_record L
            uid) memberId) memberId).balance + 10 }) := by
    simp [snuggle_cmd, hne, hcase]
  have hsnd : (snuggle_cmd uid memberId memberIsBot now L).snd =
      setRecord
        (setRecord (ensure_user_record (ensure_user_record L uid) memberId)
          uid
          { getRecord (ensure_user_record (ensure_user_record L uid)
              memberId) uid with
            balance := (getRecord (ensure_user_record
              (ensure_user_record L uid) memberId) uid).balance + 10,
            last_snuggle := now })
        memberId
        { getRecord (ensure_user_record (ensure_user_record L uid) memberId)
            memberId with
          balance := (getRecord (ensure_user_record (ensure_user_record L
            uid) memberId) memberId).balance + 10 } := by
    rw [hexp]
  refine ⟨by simp [snuggle_cmd], by rw [hexp], ?_, ?_, ?_, ?_⟩
  · rw [hsnd, balanceOf_set_other _ _ _ _ (Ne.symm hne), balanceOf_set_self]
    simp [balanceOf, getRecord_ensure_other _ _ _ (Ne.symm hne),
      getRecord_ensure_self]
  · rw [hsnd, balanceOf_set_self]
    simp [balanceOf, getRecord_ensure_self, getRecord_ensure_other _ _ _ hne]
  · rw [hsnd, getRecord_set_other _ _ _ _ (Ne.symm hne), getRecord_set_self]
  · rw [hsnd, getRecord_set_self]
    simp [getRecord_ensure_self, getRecord_ensure_other _ _ _ hne]

/-- C7 witness: user "1" snuggles user "2" at time 3600 on a fresh
document. -/
theorem spec_C7_witness :
    snuggle_cmd "1" "1" false 3600 emptyLedger = (.selfTarget, emptyLedger)
    ∧ (snuggle_cmd "1" "2" false 3600 emptyLedger).fst = .granted 10
    ∧ balanceOf (snuggle_cmd "1" "2" false 3600 emptyLedger).snd "1"
        = balanceOf emptyLedger "1" + 10
    ∧ balanceOf (snuggle_cmd "1" "2" false 3600 emptyLedger).snd "2"
        = balanceOf emptyLedger "2" + 10
    ∧ (getRecord (snuggle_cmd "1" "2" false 3600 emptyLedger).snd
        "1").last_snuggle = 3600
    ∧ (getRecord (snuggle_cmd "1" "2" false 3600 emptyLedger).snd
        "2").last_snuggle = (getRecord emptyLedger "2").last_snuggle :=
  spec_C7 "1" "2" false 3600 emptyLedger (by decide) (by decide)

/-- C9: snuggle performs no automated-account check on its target — with
the initiator off cooldown a bot target is granted all the same, the bot's
record is lazily created, and its balance is credited the fixed reward 10;
`give_cmd` by contrast rejects the same bot target outright. -/
theorem spec_C9 (uid memberId : String) (now amount : Int) (L : Ledger)
    (hne : memberId ≠ uid) (habs : L memberId = none)
    (hcd : SNUGGLE_COOLDOWN ≤ now - (getRecord L uid).last_snuggle) :
    (snuggle_cmd uid memberId true now L).fst = .granted 10
    ∧ (snuggle_cmd uid memberId true now L).snd memberId =
        some { balance := 10, last_daily := 0, last_pet := 0, last_work := 0,
               last_snuggle := 0 }
    ∧ give_cmd uid memberId true amount L = (.targetIsBot, L) := by
  have hfresh : getRecord (ensure_user_record (ensure_user_record L uid)
      memberId) memberId = freshRecord := by
    rw [getRecord_ensure_self]
    unfold getRecord
    rw [ensure_other _ _ _ hne, habs]
    rfl
  refine ⟨(spec_C7 uid memberId true now L hne hcd).2.1, ?_,
    (spec_C10 uid memberId true amount L).1 rfl⟩
  have hcase : cooldownCheck (getRecord (ensure_user_record
      (ensure_user_record L uid) memberId) uid).last_snuggle now
      SNUGGLE_COOLDOWN = .allowed := by
    unfold cooldownCheck
    rw [getRecord_ensure_other _ _ _ (Ne.symm hne), getRecord_ensure_self,
      if_neg (by omega)]
  have hexp : (snuggle_cmd uid memberId true now L).snd =
      setRecord
        (setRecord (ensure_user_record (ensure_user_record L uid) memberId)
          uid
          { getRecord (ensure_user_record (ensure_user_record L uid)
              memberId) uid with
            balance := (getRecord (ensure_user_record
              (ensure_user_record L uid) memberId) uid).balance + 10,
            last_snuggle := now })
        memberId
        { getRecord (ensure_user_record (ensure_user_record L uid) memberId)
            memberId with
          balance := (getRecord (ensure_user_record (ensure_user_record L
            uid) memberId) memberId).balance + 10 } := by
    simp [snuggle_cmd, hne, hcase]
  rw [hexp, setRecord_self, hfresh]
  rfl

/-- C9 witness: a bot target "2" on a fresh document. -/
theorem spec_C9_witness :
    (snuggle_cmd "1" "2" true 3600 emptyLedger).fst = .granted 10
    ∧ (snuggle_cmd "1" "2" true 3600 emptyLedger).snd "2" =
        some { balance := 10, last_daily := 0, last_pet := 0, last_work := 0,
               last_snuggle := 0 }
    ∧ give_cmd "1" "2" true 7 emptyLedger = (.targetIsBot, emptyLedger) :=
  spec_C9 "1" "2" 3600 7 emptyLedger (by decide) rfl (by decide)

/-- C2: for a non-empty duplicate-free entrant list (reactors with bots
filtered out) and requested winner count `k ≥ 1`, whatever the random
source: the number of winners is `min n k`, the winners all come from the
entrant list, the winner list has no duplicates, and when `n ≤ k` every
entrant wins. -/
theorem spec_C2 (reactors : List (Nat × Bool)) (users : List Nat) (k : Nat)
    (rand : Nat → Nat) (husers : users = resolveEntrants reactors)
    (hk : 1 ≤ k) (hne : users ≠ []) (hnd : users.Nodup) :
    (chooseWinners users k rand).length = min users.length k
    ∧ (∀ x ∈ chooseWinners users k rand, x ∈ users)
    ∧ (chooseWinners users k rand).Nodup
    ∧ (users.length ≤ k → chooseWinners users k rand = users) := by
  unfold chooseWinners
  by_cases hle : users.length ≤ k
  · rw [if_pos hle]
    exact ⟨(Nat.min_eq_left hle).symm, fun x hx => hx, hnd, fun _ => rfl⟩
  · rw [if_neg hle]
    have hk2 : k ≤ users.length := Nat.le_of_lt (Nat.lt_of_not_le hle)
    have hsub : List.Subperm (sample users k rand) users :=
      sampleAux_subperm rand k 0 users
    refine ⟨?_, ?_, ?_, ?_⟩
    · rw [show sample users k rand = sampleAux rand 0 k users from rfl,
        sampleAux_length rand k 0 users hk2]
      exact (Nat.min_eq_right hk2).symm
    · exact fun x hx => hsub.subset hx
    · exact subperm_nodup hsub hnd
    · intro hcon
      exact absurd hcon hle

/-- C2 witness: three reactors, one a bot, one requested winner. -/
theorem spec_C2_witness :
    (chooseWinners (1 :: 2 :: []) 1 (fun _ => 0)).length =
      min (1 :: 2 :: [] : List Nat).length 1
    ∧ (∀ x ∈ chooseWinners (1 :: 2 :: []) 1 (fun _ => 0),
        x ∈ (1 :: 2 :: [] : List Nat))
    ∧ (chooseWinners (1 :: 2 :: []) 1 (fun _ => 0)).Nodup
    ∧ ((1 :: 2 :: [] : List Nat).length ≤ 1 →
        chooseWinners (1 :: 2 :: []) 1 (fun _ => 0) = 1 :: 2 :: []) :=
  spec_C2 ((1, false) :: (2, false) :: (3, true) :: []) (1 :: 2 :: []) 1
    (fun _ => 0) (by decide) (by decide) (by decide) (by decide)

/-- C5: every economy command preserves non-negativity of all stored
balances: if every balance in the document is ≥ 0 before the command, it
is ≥ 0 after, whatever the arguments and random draws. -/
theorem spec_C5 (L : Ledger) (uid uid2 : String) (memberIsBot : Bool)
    (amount now : Int) (rnd rnd2 : Nat) (h : ledgerNonNeg L) :
    ledgerNonNeg (balance_cmd uid L).snd
    ∧ ledgerNonNeg (daily_cmd uid now L).snd
    ∧ ledgerNonNeg (pet_cmd uid now rnd L).snd
    ∧ ledgerNonNeg (work_cmd uid now rnd2 L).snd
    ∧ ledgerNonNeg (snuggle_cmd uid uid2 memberIsBot now L).snd
    ∧ ledgerNonNeg (give_cmd uid uid2 memberIsBot amount L).snd := by
  have hens : ledgerNonNeg (ensure_user_record L uid) :=
    ledgerNonNeg_ensure h uid
  have h0 : 0 ≤ (getRecord (ensure_user_record L uid) uid).balance :=
    ledgerNonNeg_balanceOf hens uid
  refine ⟨h, ?_, ?_, ?_, ?_, ?_⟩
  · cases hcase : cooldownCheck (getRecord (ensure_user_record L uid)
        uid).last_daily now DAILY_COOLDOWN with
    | denied r =>
      rw [show (daily_cmd uid now L).snd = L from by simp [daily_cmd, hcase]]
      exact h
    | allowed =>
      rw [show (daily_cmd uid now L).snd = setRecord (ensure_user_record L
          uid) uid
          { getRecord (ensure_user_record L uid) uid with
            balance := (getRecord (ensure_user_record L uid) uid).balance
              + DAILY_AMOUNT,
            last_daily := now } from by simp [daily_cmd, hcase]]
      exact ledgerNonNeg_set hens (by show 0 ≤ _ + DAILY_AMOUNT; unfold DAILY_AMOUNT; omega)
  · cases hcase : cooldownCheck (getRecord (ensure_user_record L uid)
        uid).last_pet now PET_COOLDOWN with
    | denied r =>
      rw [show (pet_cmd uid now rnd L).snd = L from by simp [pet_cmd, hcase]]
      exact h
    | allowed =>
      rw [show (pet_cmd uid now rnd L).snd = setRecord (ensure_user_record L
          uid) uid
          { getRecord (ensure_user_record L uid) uid with
            balance := (getRecord (ensure_user_record L uid) uid).balance
              + (5 + (rnd % 21 : Nat)),
            last_pet := now } from by simp [pet_cmd, hcase]]
      exact ledgerNonNeg_set hens (by show 0 ≤ _ + (5 + (rnd % 21 : Nat) : Int); omega)
  · cases hcase : cooldownCheck (getRecord (ensure_user_record L uid)
        uid).last_work now WORK_COOLDOWN with
    | denied r =>
      rw [show (work_cmd uid now rnd2 L).snd = L from by
        simp [work_cmd, hcase]]
      exact h
    | allowed =>
      rw [show (work_cmd uid now rnd2 L).snd = setRecord (ensure_user_record
          L uid) uid
          { getRecord (ensure_user_record L uid) uid with
            balance := (getRecord (ensure_user_record L uid) uid).balance
              + (20 + (rnd2 % 131 : Nat)),
            last_work := now } from by simp [work_cmd, hcase]]
      exact ledgerNonNeg_set hens (by show 0 ≤ _ + (20 + (rnd2 % 131 : Nat) : Int); omega)
  · by_cases hself : uid2 = uid
    · rw [show (snuggle_cmd uid uid2 memberIsBot now L).snd = L from by
        simp [snuggle_cmd, hself]]
      exact h
    · have hens2 : ledgerNonNeg (ensure_user_record (ensure_user_record L
          uid) uid2) := ledgerNonNeg_ensure hens uid2
      have ha : 0 ≤ (getRecord (ensure_user_record (ensure_user_record L
          uid) uid2) uid).balance := ledgerNonNeg_balanceOf hens2 uid
      have hb : 0 ≤ (getRecord (ensure_user_record (ensure_user_record L
          uid) uid2) uid2).balance := ledgerNonNeg_balanceOf hens2 uid2
      cases hcase : cooldownCheck (getRecord (ensure_user_record
          (ensure_user_record L uid) uid2) uid).last_snuggle now
          SNUGGLE_COOLDOWN with
      | denied r =>
        rw [show (snuggle_cmd uid uid2 memberIsBot now L).snd = L from by
          simp [snuggle_cmd, hself, hcase]]
        exact h
      | allowed =>
        rw [show (snuggle_cmd uid uid2 memberIsBot now L).snd =
            setRecord
              (setRecord (ensure_user_record (ensure_user_record L uid)
                uid2) uid
                { getRecord (ensure_user_record (ensure_user_record L uid)
                    uid2) uid with
                  balance := (getRecord (ensure_user_record
                    (ensure_user_record L uid) uid2) uid).balance + 10,
                  last_snuggle := now })
              uid2
              { getRecord (ensure_user_record (ensure_user_record L uid)
                  uid2) uid2 with
                balance := (getRecord (ensure_user_record
                  (ensure_user_record L uid) uid2) uid2).balance + 10 }
            from by simp [snuggle_cmd, hself, hcase]]
        exact ledgerNonNeg_set
          (ledgerNonNeg_set hens2 (by show 0 ≤ _ + (10 : Int); omega))
          (by show 0 ≤ _ + (10 : Int); omega)
  · by_cases hbot : memberIsBot
    · rw [show (give_cmd uid uid2 memberIsBot amount L).snd = L from by
        simp [give_cmd, hbot]]
      exact h
    · by_cases hamt : amount ≤ 0
      · rw [show (give_cmd uid uid2 memberIsBot amount L).snd = L from by
          simp [give_cmd, hbot, hamt]]
        exact h
      · by_cases hself : uid2 = uid
        · rw [show (give_cmd uid uid2 memberIsBot amount L).snd = L from by
            simp [give_cmd, hbot, hamt, hself]]
          exact h
        · have hens2 : ledgerNonNeg (ensure_user_record (ensure_user_record
              L uid) uid2) := ledgerNonNeg_ensure hens uid2
          have hrb : 0 ≤ (getRecord (ensure_user_record (ensure_user_record
              L uid) uid2) uid2).balance := ledgerNonNeg_balanceOf hens2 uid2
          by_cases hfunds : (getRecord (ensure_user_record
              (ensure_user_record L uid) uid2) uid).balance < amount
          · rw [show (give_cmd uid uid2 memberIsBot amount L).snd = L from
              by simp [give_cmd, hbot, hamt, hself, hfunds]]
            exact h
          · rw [show (give_cmd uid uid2 memberIsBot amount L).snd =
                setRecord
                  (setRecord (ensure_user_record (ensure_user_record L uid)
                    uid2) uid
                    { getRecord (ensure_user_record (ensure_user_record L
                        uid) uid2) uid with
                      balance := (getRecord (ensure_user_record
                        (ensure_user_record L uid) uid2) uid).balance
                        - amount })
                  uid2
                  { getRecord (ensure_user_record (ensure_user_record L uid)
                      uid2) uid2 with
                    balance := (getRecord (ensure_user_record
                      (ensure_user_record L uid) uid2) uid2).balance
                      + amount }
              from by simp [give_cmd, hbot, hamt, hself, hfunds]]
            exact ledgerNonNeg_set
              (ledgerNonNeg_set hens2 (by show 0 ≤ _ - amount; omega))
              (by show 0 ≤ _ + amount; omega)

/-- C5 witness: all six commands applied to the concrete document holding
one balance of 50. -/
theorem spec_C5_witness :
    ledgerNonNeg (balance_cmd "1" exampleLedger).snd
    ∧ ledgerNonNeg (daily_cmd "1" 86400 exampleLedger).snd
    ∧ ledgerNonNeg (pet_cmd "1" 86400 3 exampleLedger).snd
    ∧ ledgerNonNeg (work_cmd "1" 86400 4 exampleLedger).snd
    ∧ ledgerNonNeg (snuggle_cmd "1" "2" false 86400 exampleLedger).snd
    ∧ ledgerNonNeg (give_cmd "1" "2" false 30 exampleLedger).snd :=
  spec_C5 exampleLedger "1" "2" false 30 86400 3 4
    (fun u r hr => by
      by_cases hu : u = "1"
      · subst hu
        rw [show exampleLedger "1" = some exampleRecord from rfl] at hr
        cases hr
        decide
      · rw [show exampleLedger u = none from by
          simp [exampleLedger, setRecord, emptyLedger, hu]] at hr
        cases hr)

end Bot
